import Mathlib

/-!
Verification of the sc360-iem spatial audio core against its specification.

The development shallowly embeds the TypeScript source:
* src/utils/math.ts        — clamp, radToDeg, degToRad, normalizeDegrees,
                             pointToAzEl, azElToPoint, computeWXYZ
* src/audio/hybridLoader.ts — loadHybridSofa, findNearestHRIR,
                             createAmbisonicHRIRBuffer and its inner resample
* src/audio/directionalEQ.ts — DirectionalEQ.updateDirection / setEnabled
* src/audio/audioEngine.ts  — AudioEngine.loadFile / loadFromUrl
* src/audio/audioLoader.ts  — downmixToMono

JavaScript numbers are modelled as real numbers.  A read past the end of a
typed array yields undefined in JavaScript and poisons subsequent float
arithmetic with NaN; samples are therefore modelled as Option ℝ, with none
standing for such a NaN.  The JavaScript remainder operator (truncated
division) is modelled explicitly by jsFmod.
-/

open Real

namespace SC360

/-! ## JavaScript numeric primitives -/

/-- Truncation toward zero, the rounding used by the JavaScript % operator. -/
noncomputable def jsTrunc (r : ℝ) : ℤ :=
  if 0 ≤ r then ⌊r⌋ else ⌈r⌉

/-- The JavaScript remainder x % y: the result has the sign of x and
satisfies x % y = x - y * trunc (x / y). -/
noncomputable def jsFmod (x y : ℝ) : ℝ :=
  x - y * (jsTrunc (x / y) : ℝ)

/-! ## src/utils/math.ts -/

/-- Source clamp: Math.max(min, Math.min(max, value)). -/
noncomputable def clamp (value lo hi : ℝ) : ℝ :=
  max lo (min hi value)

/-- Source radToDeg: rad * (180 / PI). -/
noncomputable def radToDeg (rad : ℝ) : ℝ :=
  rad * (180 / π)

/-- Source degToRad: deg * (PI / 180). -/
noncomputable def degToRad (deg : ℝ) : ℝ :=
  deg * (π / 180)

/-- Source normalizeDegrees: let normalized = deg % 360; subtract 360 when
above 180, add 360 when below -180. -/
noncomputable def normalizeDegrees (deg : ℝ) : ℝ :=
  let normalized := jsFmod deg 360
  if normalized > 180 then normalized - 360
  else if normalized < -180 then normalized + 360
  else normalized

/-- Math.atan2(y, x): the angle in (-π, π] of the point (x, y), modelled as
the argument of the complex number x + y·i. -/
noncomputable def atan2 (y x : ℝ) : ℝ :=
  Complex.arg ⟨x, y⟩

/-- Source pointToAzEl: distance from the center mapped to elevation,
atan2 of the negated coordinates mapped to azimuth. -/
noncomputable def pointToAzEl (x y radius : ℝ) : ℝ × ℝ :=
  let distance := Real.sqrt (x * x + y * y)
  let normalizedDistance := clamp (distance / radius) 0 1
  let angle := atan2 (-x) (-y)
  let azDeg := normalizeDegrees (radToDeg angle)
  let elDeg := (1 - normalizedDistance) * 90
  (azDeg, elDeg)

/-- Source azElToPoint: elevation mapped back to a distance, azimuth to an
angle, with the same UI sign inversion as pointToAzEl. -/
noncomputable def azElToPoint (azDeg elDeg radius : ℝ) : ℝ × ℝ :=
  let normalizedDistance := 1 - clamp elDeg 0 90 / 90
  let distance := normalizedDistance * radius
  let angleRad := degToRad azDeg
  (-(Real.sin angleRad) * distance, -(Real.cos angleRad) * distance)

/-- Result record of computeWXYZ. -/
structure WXYZ where
  w : ℝ
  x : ℝ
  y : ℝ
  z : ℝ

/-- Source computeWXYZ: quaternion-style readout from half angles. -/
noncomputable def computeWXYZ (azDeg elDeg : ℝ) : WXYZ :=
  let azRad := degToRad azDeg
  let elRad := degToRad elDeg
  let halfAz := azRad / 2
  let halfEl := elRad / 2
  let cosHalfAz := Real.cos halfAz
  let sinHalfAz := Real.sin halfAz
  let cosHalfEl := Real.cos halfEl
  let sinHalfEl := Real.sin halfEl
  { w := cosHalfAz * cosHalfEl
    x := cosHalfAz * sinHalfEl
    y := -sinHalfAz * sinHalfEl
    z := sinHalfAz * cosHalfEl }

/-! ## src/audio/hybridLoader.ts -/

/-- Parsed SOFA data structure (HybridSofaData in the source).  Samples are
Option ℝ: none marks a NaN coming from a read past the binary payload. -/
structure HybridSofaData where
  sampleRate : ℝ
  numPositions : ℕ
  hrirLength : ℕ
  numReceivers : ℕ
  sourcePositions : List (ℝ × ℝ × ℝ)
  irLeft : List (List (Option ℝ))
  irRight : List (List (Option ℝ))

instance : Inhabited HybridSofaData :=
  ⟨⟨0, 0, 0, 0, [], [], []⟩⟩

/-- The metadata leaves that loadHybridSofa extracts from the SOFA JSON:
the Data.IR shape, the SourcePosition rows, and the Data.SamplingRate value
(a scalar or an array in the wild, hence the sum type). -/
structure SofaMetadata where
  irShape : Option (List ℕ)
  sourcePositionData : Option (List (ℝ × ℝ × ℝ))
  sampleRateData : Option (ℝ ⊕ List ℝ)

/-- Source loadHybridSofa, starting after the two fetches: validate the
metadata leaves (each missing leaf throws), destructure the [M, R, N]
shape, warn — but do not fail — when the payload length differs from
M·R·N, and reshape the flat payload into per-position left/right IRs.
A read past the payload end is none (NaN through undefined in JS).
The returned list of strings collects the console.warn messages. -/
noncomputable def loadHybridSofa (meta : SofaMetadata) (rawData : List ℝ) :
    Except String (HybridSofaData × List String) :=
  match meta.irShape with
  | none => .error "SOFA metadata missing Data.IR shape"
  | some shape =>
    match meta.sourcePositionData with
    | none => .error "SOFA file missing SourcePosition"
    | some sourcePositionData =>
      match meta.sampleRateData with
      | none => .error "SOFA file missing Data.SamplingRate"
      | some sampleRateData =>
        let numPositions := shape.getD 0 0
        let numReceivers := shape.getD 1 0
        let hrirLength := shape.getD 2 0
        let sampleRate : ℝ :=
          match sampleRateData with
          | .inl scalar => scalar
          | .inr arr => arr.getD 0 0
        let expectedSize := numPositions * numReceivers * hrirLength
        let warnings : List String :=
          if rawData.length ≠ expectedSize then
            ["Binary data size mismatch. Expected " ++ toString expectedSize ++
              ", got " ++ toString rawData.length]
          else []
        let irLeft : List (List (Option ℝ)) :=
          (List.range numPositions).map fun m =>
            (List.range hrirLength).map fun n =>
              rawData.get? (m * numReceivers * hrirLength + n)
        let irRight : List (List (Option ℝ)) :=
          (List.range numPositions).map fun m =>
            (List.range hrirLength).map fun n =>
              rawData.get? (m * numReceivers * hrirLength + hrirLength + n)
        .ok ({ sampleRate := sampleRate
               numPositions := numPositions
               hrirLength := hrirLength
               numReceivers := numReceivers
               sourcePositions := sourcePositionData
               irLeft := irLeft
               irRight := irRight }, warnings)

/-- The haversine-style angular distance computed inside the loop of
findNearestHRIR, between the already-normalized target azimuth and a
stored source position (azimuth, elevation, distance). -/
noncomputable def hrirDistance (targetAz elevation : ℝ) (pos : ℝ × ℝ × ℝ) : ℝ :=
  let az := pos.1
  let el := pos.2.1
  let az1 := targetAz * π / 180
  let az2 := az * π / 180
  let el1 := elevation * π / 180
  let el2 := el * π / 180
  let dAz := az2 - az1
  let dEl := el2 - el1
  let a := Real.sin (dEl / 2) ^ 2 +
    Real.cos el1 * Real.cos el2 * Real.sin (dAz / 2) ^ 2
  2 * Real.arcsin (Real.sqrt a)

/-- The azimuth normalization at the top of findNearestHRIR:
((azimuth % 360) + 360) % 360. -/
noncomputable def normAz360 (azimuth : ℝ) : ℝ :=
  jsFmod (jsFmod azimuth 360 + 360) 360

open Classical in
/-- One iteration of the findNearestHRIR scan.  The accumulator carries
(minDistance, nearestIndex); minDistance starts as Infinity, modelled by
none, against which any real distance compares strictly less. -/
noncomputable def findStep (d : ℕ → ℝ) (acc : Option ℝ × ℕ) (i : ℕ) : Option ℝ × ℕ :=
  match acc with
  | (none, _) => (some (d i), i)
  | (some m, j) => if d i < m then (some (d i), i) else (some m, j)

/-- Source findNearestHRIR: linear scan over the numPositions stored
positions keeping the first index of strictly smallest angular distance. -/
noncomputable def findNearestHRIR (sofaData : HybridSofaData)
    (azimuth elevation : ℝ) : ℕ :=
  ((List.range sofaData.numPositions).foldl
    (findStep fun i =>
      hrirDistance (normAz360 azimuth) elevation
        (sofaData.sourcePositions.getD i (0, 0, 0)))
    (none, 0)).2

/-- The linear interpolation output[i] = input[floor]·(1-t) + input[ceil]·t
of the inner resample; NaN (none) in either operand poisons the output,
matching JS float arithmetic. -/
noncomputable def lerpSample (a b : Option ℝ) (t : ℝ) : Option ℝ :=
  match a, b with
  | some xa, some xb => some (xa * (1 - t) + xb * t)
  | _, _ => none

/-- An indexed read input[i] of a sample array: out-of-range (including
negative) indices give undefined, hence NaN, hence none. -/
def readSample (input : List (Option ℝ)) (i : ℤ) : Option ℝ :=
  if i < 0 then none else (input.get? i.toNat).getD none

open Classical in
/-- The resample closure inside createAmbisonicHRIRBuffer: identity when
the captured needsResampling flag is false, otherwise linear interpolation
with ratio (inputLen - 1) / (outputLen - 1).  The ratio is JS float
division: when outputLen = 1 its denominator is 0 and the ratio is
plus or minus Infinity, or NaN for 0/0; the source position i·ratio of
the only output index i = 0 is then NaN in every such case, Math.floor
of NaN is NaN, and indexing with NaN reads undefined, so the output
sample is NaN (none).  When outputLen is not 1 the denominator is a
nonzero real and JS division agrees with real division. -/
noncomputable def resample (needsResampling : Bool) (input : List (Option ℝ))
    (outputLen : ℕ) : List (Option ℝ) :=
  if ¬needsResampling then input
  else
    (List.range outputLen).map fun (i : ℕ) =>
      if outputLen = 1 then none
      else
        let ratio := ((input.length : ℝ) - 1) / ((outputLen : ℝ) - 1)
        let srcIdx := (i : ℝ) * ratio
        let srcIdxFloor := ⌊srcIdx⌋
        let srcIdxCeil := min (srcIdxFloor + 1) ((input.length : ℤ) - 1)
        let t := srcIdx - (srcIdxFloor : ℝ)
        lerpSample (readSample input srcIdxFloor) (readSample input srcIdxCeil) t

open Classical in
/-- Source createAmbisonicHRIRBuffer: look up the six cardinal directions,
decide whether resampling to the context rate is needed, and assemble the
8-channel buffer [W_L, W_R, Y_L, Y_R, Z_L, Z_R, X_L, X_R] from the front,
left, up and again front HRIR pairs. -/
noncomputable def createAmbisonicHRIRBuffer (sofaData : HybridSofaData)
    (contextSampleRate : ℝ) : List (List (Option ℝ)) :=
  let frontIdx := findNearestHRIR sofaData 0 0
  let _backIdx := findNearestHRIR sofaData 180 0
  let leftIdx := findNearestHRIR sofaData 90 0
  let _rightIdx := findNearestHRIR sofaData (-90) 0
  let upIdx := findNearestHRIR sofaData 0 90
  let _downIdx := findNearestHRIR sofaData 0 (-90)
  let sofaSampleRate := sofaData.sampleRate
  let needsResampling : Bool := decide (contextSampleRate ≠ sofaSampleRate)
  let resampleRatio := contextSampleRate / sofaSampleRate
  let outputLength : ℕ :=
    if needsResampling then (⌈(sofaData.hrirLength : ℝ) * resampleRatio⌉).toNat
    else sofaData.hrirLength
  [resample needsResampling (sofaData.irLeft.getD frontIdx []) outputLength,
   resample needsResampling (sofaData.irRight.getD frontIdx []) outputLength,
   resample needsResampling (sofaData.irLeft.getD leftIdx []) outputLength,
   resample needsResampling (sofaData.irRight.getD leftIdx []) outputLength,
   resample needsResampling (sofaData.irLeft.getD upIdx []) outputLength,
   resample needsResampling (sofaData.irRight.getD upIdx []) outputLength,
   resample needsResampling (sofaData.irLeft.getD frontIdx []) outputLength,
   resample needsResampling (sofaData.irRight.getD frontIdx []) outputLength]

/-! ## src/audio/directionalEQ.ts -/

/-- HIGH_SHELF_MAX_GAIN_DB of the source. -/
noncomputable def HIGH_SHELF_MAX_GAIN_DB : ℝ := 7

/-- LOW_SHELF_MAX_GAIN_DB of the source. -/
noncomputable def LOW_SHELF_MAX_GAIN_DB : ℝ := 8

/-- Observable state of a DirectionalEQ instance: the enabled flag, the
remembered azimuth, and the gain targets the two shelving filters were
last ramped toward (setTargetAtTime is modelled by recording its target). -/
structure DirectionalEQState where
  enabled : Bool
  currentAzimuth : ℝ
  highShelfGain : ℝ
  lowShelfGain : ℝ

/-- Source DirectionalEQ.updateDirection: early return when disabled;
otherwise remember the azimuth and ramp the high shelf toward
7·cos(az) dB and the low shelf toward 8·(1 - cos(az))/2 dB. -/
noncomputable def updateDirection (azimuth : ℝ) (s : DirectionalEQState) :
    DirectionalEQState :=
  if !s.enabled then s
  else
    let azimuthRad := azimuth * π / 180
    let highGainDB := HIGH_SHELF_MAX_GAIN_DB * Real.cos azimuthRad
    let backFactor := (1 - Real.cos azimuthRad) / 2
    let lowGainDB := LOW_SHELF_MAX_GAIN_DB * backFactor
    { s with
      currentAzimuth := azimuth
      highShelfGain := highGainDB
      lowShelfGain := lowGainDB }

/-- Source DirectionalEQ.setEnabled: store the flag, then either re-apply
the remembered azimuth or ramp both filters back to 0 dB. -/
noncomputable def setEnabled (enabled : Bool) (s : DirectionalEQState) :
    DirectionalEQState :=
  let s1 := { s with enabled := enabled }
  if enabled then updateDirection s1.currentAzimuth s1
  else { s1 with highShelfGain := 0, lowShelfGain := 0 }

/-! ## src/audio/audioLoader.ts and the AudioEngine load path -/

/-- A decoded AudioBuffer, as its list of channels (each a sample list). -/
def AudioBuf := List (List ℝ)

/-- Source downmixToMono: single-channel buffers pass through; otherwise
one mono channel whose sample i is the per-sample average over channels. -/
noncomputable def downmixToMono (buffer : AudioBuf) : AudioBuf :=
  if buffer.length = 1 then buffer
  else
    let len := (buffer.headD []).length
    let numChannels := buffer.length
    [(List.range len).map fun i =>
      (buffer.foldl (fun sum ch => sum + ch.getD i 0) 0) / (numChannels : ℝ)]

/-- The AudioEngine state touched by the load path: context present,
disposed flag, the stored decoded source, its file name, and the playing
flag. -/
structure AudioEngineState where
  hasContext : Bool
  disposed : Bool
  audioBuffer : Option AudioBuf
  fileName : Option String
  isPlaying : Bool

/-- Source AudioEngine.loadFile.  The awaited decode is passed in as its
outcome: a rejected decode re-raises before any field is assigned, so the
engine state is returned untouched next to the surfaced error.  A resolved
decode is downmixed and stored together with the file name; the playing
flag is never written. -/
noncomputable def loadFile (s : AudioEngineState) (decoded : Except String AudioBuf)
    (name : String) : AudioEngineState × Option String :=
  if !s.hasContext || s.disposed then (s, some "Audio engine not initialized")
  else
    match decoded with
    | .error e => (s, some e)
    | .ok buffer =>
      if s.disposed || !s.hasContext then (s, none)
      else
        ({ s with
            audioBuffer := some (downmixToMono buffer)
            fileName := some name }, none)

/-- url.split with pop() || the fallback, as in AudioEngine.loadFromUrl. -/
def urlFileName (url : String) : String :=
  let last := (url.splitOn "/").getLastD ""
  if last = "" then "audio" else last

/-- Source AudioEngine.loadFromUrl: as loadFile, with the stored name
taken from the last path segment of the url (or the fallback "audio"). -/
noncomputable def loadFromUrl (s : AudioEngineState) (decoded : Except String AudioBuf)
    (url : String) : AudioEngineState × Option String :=
  if !s.hasContext || s.disposed then (s, some "Audio engine not initialized")
  else
    match decoded with
    | .error e => (s, some e)
    | .ok buffer =>
      if s.disposed || !s.hasContext then (s, none)
      else
        ({ s with
            audioBuffer := some (downmixToMono buffer)
            fileName := some (urlFileName url) }, none)

/-! ## Arithmetic facts about the JavaScript remainder -/

lemma jsTrunc_eq_zero {q : ℝ} (h1 : -1 < q) (h2 : q < 1) : jsTrunc q = 0 := by
  unfold jsTrunc
  split_ifs with h
  · exact Int.floor_eq_zero_iff.mpr ⟨h, h2⟩
  · exact Int.ceil_eq_zero_iff.mpr ⟨h1, le_of_lt (lt_of_not_ge h)⟩

lemma jsFmod_eq_self {x : ℝ} (h1 : -360 < x) (h2 : x < 360) : jsFmod x 360 = x := by
  have hq1 : -1 < x / 360 := by
    rw [neg_lt, ← neg_div]
    exact (div_lt_one (by norm_num)).mpr (by linarith)
  have hq2 : x / 360 < 1 := (div_lt_one (by norm_num)).mpr h2
  unfold jsFmod
  rw [jsTrunc_eq_zero hq1 hq2]
  simp

lemma jsFmod_nonneg_bounds {x : ℝ} (hx : 0 ≤ x) :
    0 ≤ jsFmod x 360 ∧ jsFmod x 360 < 360 := by
  unfold jsFmod jsTrunc
  rw [if_pos (by positivity : (0:ℝ) ≤ x / 360)]
  have h1 : (⌊x / 360⌋ : ℝ) ≤ x / 360 := Int.floor_le _
  have h2 : x / 360 < ⌊x / 360⌋ + 1 := Int.lt_floor_add_one _
  constructor <;> nlinarith

lemma jsFmod_neg_bounds {x : ℝ} (hx : x < 0) :
    -360 < jsFmod x 360 ∧ jsFmod x 360 ≤ 0 := by
  unfold jsFmod jsTrunc
  rw [if_neg (by intro h; nlinarith : ¬ (0:ℝ) ≤ x / 360)]
  have h1 : x / 360 ≤ (⌈x / 360⌉ : ℝ) := Int.le_ceil _
  have h2 : (⌈x / 360⌉ : ℝ) < x / 360 + 1 := Int.ceil_lt_add_one _
  constructor <;> nlinarith

lemma jsFmod_bounds (x : ℝ) : -360 < jsFmod x 360 ∧ jsFmod x 360 < 360 := by
  rcases le_or_lt 0 x with h | h
  · have := jsFmod_nonneg_bounds h
    exact ⟨by linarith [this.1], this.2⟩
  · have := jsFmod_neg_bounds h
    exact ⟨this.1, by linarith [this.2]⟩

lemma normalizeDegrees_eq_self {x : ℝ} (h1 : -180 < x) (h2 : x ≤ 180) :
    normalizeDegrees x = x := by
  unfold normalizeDegrees
  rw [jsFmod_eq_self (by linarith) (by linarith)]
  rw [if_neg (by linarith : ¬ x > 180), if_neg (by linarith : ¬ x < -180)]

/-! ## Claim theorems -/

/-- Claim C8: for every azimuth and elevation, the four components
returned by computeWXYZ (w = cos(az/2)cos(el/2), x = cos(az/2)sin(el/2),
y = -sin(az/2)sin(el/2), z = sin(az/2)cos(el/2), half angles in radians)
satisfy w² + x² + y² + z² = 1; over the reals the identity is exact, which
subsumes the 1e-9 floating-point tolerance. -/
theorem computeWXYZ_unit_norm (azDeg elDeg : ℝ) :
    (computeWXYZ azDeg elDeg).w ^ 2 + (computeWXYZ azDeg elDeg).x ^ 2 +
      (computeWXYZ azDeg elDeg).y ^ 2 + (computeWXYZ azDeg elDeg).z ^ 2 = 1 := by
  have hA := Real.sin_sq_add_cos_sq (degToRad azDeg / 2)
  have hE := Real.sin_sq_add_cos_sq (degToRad elDeg / 2)
  simp only [computeWXYZ]
  linear_combination
    (Real.cos (degToRad azDeg / 2) ^ 2 + Real.sin (degToRad azDeg / 2) ^ 2) * hE + hA

/-- Claim C4, counterexample: normalizeDegrees maps -180 to -180, not to
180, so the returned value is not always inside the half-open interval
(-180, 180] and -180 is returned for an input congruent to 180 mod 360. -/
theorem normalizeDegrees_neg_180_counterexample :
    normalizeDegrees (-180) = -180 ∧ normalizeDegrees (-180) ≠ 180 ∧
      ¬ (-180 < normalizeDegrees (-180)) := by
  have hm : jsFmod (-180) 360 = -180 := jsFmod_eq_self (by norm_num) (by norm_num)
  have h : normalizeDegrees (-180) = -180 := by
    unfold normalizeDegrees
    rw [hm]
    norm_num
  refine ⟨h, ?_, ?_⟩ <;> rw [h] <;> norm_num

/-- Claim C4, amended: for every real input, normalizeDegrees returns a
value that differs from the input by an integer multiple of 360 and lies
in the closed interval [-180, 180]; the endpoint -180 is reachable (for
negative inputs congruent to 180 mod 360, such as -180 itself). -/
theorem normalizeDegrees_range (x : ℝ) :
    (∃ k : ℤ, x - normalizeDegrees x = 360 * k) ∧
      -180 ≤ normalizeDegrees x ∧ normalizeDegrees x ≤ 180 := by
  have hb := jsFmod_bounds x
  have hsub : x - jsFmod x 360 = 360 * (jsTrunc (x / 360) : ℝ) := by
    unfold jsFmod
    ring
  simp only [normalizeDegrees]
  split_ifs with hgt hlt
  · refine ⟨⟨jsTrunc (x / 360) + 1, ?_⟩, by linarith [hb.2], by linarith [hb.2]⟩
    push_cast
    linarith [hsub]
  · refine ⟨⟨jsTrunc (x / 360) - 1, ?_⟩, by linarith [hb.1], by linarith [hb.1]⟩
    push_cast
    linarith [hsub]
  · exact ⟨⟨jsTrunc (x / 360), by linarith [hsub]⟩,
      by linarith [not_lt.mp hlt], by linarith [not_lt.mp hgt]⟩

/-- Claim C6: DirectionalEQ.updateDirection is a no-op when the EQ is
disabled; when enabled it sets the high-shelf target to 7·cos(az) dB and
the low-shelf target to 8·(1 - cos(az))/2 dB (azimuth in radians), so
azimuth 0 yields (+7 dB, 0 dB) and azimuth 180 yields (-7 dB, +8 dB). -/
theorem updateDirection_spec (s : DirectionalEQState) (az : ℝ) :
    (s.enabled = false → updateDirection az s = s) ∧
    (s.enabled = true →
      updateDirection az s =
        { s with
          currentAzimuth := az
          highShelfGain := 7 * Real.cos (az * π / 180)
          lowShelfGain := 8 * ((1 - Real.cos (az * π / 180)) / 2) } ∧
      (updateDirection 0 s).highShelfGain = 7 ∧
      (updateDirection 0 s).lowShelfGain = 0 ∧
      (updateDirection 180 s).highShelfGain = -7 ∧
      (updateDirection 180 s).lowShelfGain = 8) := by
  constructor
  · intro h
    simp [updateDirection, h]
  · intro h
    have h0 : (0 : ℝ) * π / 180 = 0 := by ring
    have h180 : (180 : ℝ) * π / 180 = π := by ring
    simp only [updateDirection, HIGH_SHELF_MAX_GAIN_DB, LOW_SHELF_MAX_GAIN_DB, h,
      Bool.not_true, Bool.false_eq_true, if_false, h0, h180, Real.cos_zero, Real.cos_pi]
    norm_num

/-- Witness for C6 at concrete states: disabled leaves the state alone,
enabled at azimuth 0 sets the targets to +7 dB and 0 dB. -/
theorem updateDirection_spec_witness :
    (updateDirection 25 ⟨false, 3, 1, 2⟩ = ⟨false, 3, 1, 2⟩) ∧
      (updateDirection 0 ⟨true, 3, 1, 2⟩).highShelfGain = 7 ∧
      (updateDirection 0 ⟨true, 3, 1, 2⟩).lowShelfGain = 0 ∧
      (updateDirection 180 ⟨true, 3, 1, 2⟩).highShelfGain = -7 ∧
      (updateDirection 180 ⟨true, 3, 1, 2⟩).lowShelfGain = 8 :=
  ⟨(updateDirection_spec ⟨false, 3, 1, 2⟩ 25).1 rfl,
    ((updateDirection_spec ⟨true, 3, 1, 2⟩ 25).2 rfl).2.1,
    ((updateDirection_spec ⟨true, 3, 1, 2⟩ 25).2 rfl).2.2.1,
    ((updateDirection_spec ⟨true, 3, 1, 2⟩ 25).2 rfl).2.2.2.1,
    ((updateDirection_spec ⟨true, 3, 1, 2⟩ 25).2 rfl).2.2.2.2⟩

/-- Claim C9: a failed decode in loadFile or loadFromUrl surfaces the
error to the caller and leaves the stored source buffer, file name and
playing flag exactly as they were; a successful decode replaces the
stored buffer and file name but never touches the playing flag. -/
theorem loadSource_spec (s : AudioEngineState) (e : String) (buffer : AudioBuf)
    (name url : String) (hc : s.hasContext = true) (hd : s.disposed = false) :
    loadFile s (.error e) name = (s, some e) ∧
    loadFromUrl s (.error e) url = (s, some e) ∧
    loadFile s (.ok buffer) name =
      ({ s with
          audioBuffer := some (downmixToMono buffer)
          fileName := some name }, none) ∧
    loadFromUrl s (.ok buffer) url =
      ({ s with
          audioBuffer := some (downmixToMono buffer)
          fileName := some (urlFileName url) }, none) ∧
    (loadFile s (.ok buffer) name).1.isPlaying = s.isPlaying ∧
    (loadFromUrl s (.ok buffer) url).1.isPlaying = s.isPlaying := by
  refine ⟨?_, ?_, ?_, ?_, ?_, ?_⟩ <;>
    simp [loadFile, loadFromUrl, hc, hd]

/-- Witness for C9 at a fresh initialized engine: the decode error string
is surfaced with the state unchanged, and a successful stereo decode is
stored downmixed without starting playback. -/
theorem loadSource_spec_witness :
    loadFile ⟨true, false, none, none, false⟩ (.error "decode failed") "a.wav" =
      (⟨true, false, none, none, false⟩, some "decode failed") ∧
    loadFromUrl ⟨true, false, none, none, false⟩ (.error "decode failed") "x/y.wav" =
      (⟨true, false, none, none, false⟩, some "decode failed") ∧
    loadFile ⟨true, false, none, none, false⟩ (.ok [[1, 1], [-1, -1]]) "a.wav" =
      ({ (⟨true, false, none, none, false⟩ : AudioEngineState) with
          audioBuffer := some (downmixToMono [[1, 1], [-1, -1]])
          fileName := some "a.wav" }, none) ∧
    loadFromUrl ⟨true, false, none, none, false⟩ (.ok [[1, 1], [-1, -1]]) "x/y.wav" =
      ({ (⟨true, false, none, none, false⟩ : AudioEngineState) with
          audioBuffer := some (downmixToMono [[1, 1], [-1, -1]])
          fileName := some (urlFileName "x/y.wav") }, none) ∧
    (loadFile ⟨true, false, none, none, false⟩ (.ok [[1, 1], [-1, -1]]) "a.wav").1.isPlaying =
      (⟨true, false, none, none, false⟩ : AudioEngineState).isPlaying ∧
    (loadFromUrl ⟨true, false, none, none, false⟩ (.ok [[1, 1], [-1, -1]]) "x/y.wav").1.isPlaying =
      (⟨true, false, none, none, false⟩ : AudioEngineState).isPlaying :=
  loadSource_spec ⟨true, false, none, none, false⟩ "decode failed"
    [[1, 1], [-1, -1]] "a.wav" "x/y.wav" rfl rfl

/-- Claim C7, counterexample: on the linear-interpolation branch a
single-sample impulse response is not returned unchanged: the ratio
(1-1)/(1-1) is the JS float 0/0 = NaN, which poisons the only output
sample, so the program returns the NaN sample (none), not the input. -/
theorem resample_singleton_counterexample :
    resample true [some (5 : ℝ)] ([some (5 : ℝ)].length) = [none] ∧
      resample true [some (5 : ℝ)] ([some (5 : ℝ)].length) ≠ [some (5 : ℝ)] := by
  constructor
  · simp [resample]
  · simp [resample]

/-- Claim C7, amended: resampling an impulse response to its own length
is the identity on the pass-through branch for every length, and on the
linear-interpolation branch for every length other than 1: there the
source position of output index i is i·(L-1)/(L-1), whose interpolation
weight degenerates to the sample at index i.  A single-sample response
on the interpolation branch instead hits the NaN ratio 0/0 and comes
back as the NaN sample.  The samples of an impulse response are numbers
(isSome), never the NaN marker. -/
theorem resample_identity (input : List (Option ℝ))
    (hreal : ∀ o ∈ input, o.isSome) :
    resample false input input.length = input ∧
    (input.length ≠ 1 → resample true input input.length = input) := by
  constructor
  · simp [resample]
  · intro hlen
    rcases Nat.lt_or_ge input.length 2 with hL | hL
    · have h0 : input = [] := List.length_eq_zero.mp (by omega)
      subst h0
      simp [resample]
    · simp only [resample, not_true, if_false]
      apply List.ext_getElem
      · simp
      · intro i h1 h2
        simp only [List.getElem_map, List.getElem_range]
        rw [if_neg hlen]
        have hiL : i < input.length := by simpa using h2
        have hvi := hreal (input[i]) (List.getElem_mem hiL)
        obtain ⟨v, hv⟩ := Option.isSome_iff_exists.mp hvi
        have hratio : ((input.length : ℝ) - 1) / ((input.length : ℝ) - 1) = 1 := by
          apply div_self
          have h2R : (2 : ℝ) ≤ (input.length : ℝ) := by exact_mod_cast hL
          linarith
        rw [hratio, mul_one]
        have hfloor : ⌊(i : ℝ)⌋ = (i : ℤ) := Int.floor_natCast i
        rw [hfloor]
        have ht : (i : ℝ) - ((i : ℤ) : ℝ) = 0 := by
          push_cast
          ring
        rw [ht]
        have hrs : readSample input ((i : ℕ) : ℤ) = input[i] := by
          unfold readSample
          rw [if_neg (by omega : ¬ ((i : ℕ) : ℤ) < 0)]
          simp [List.getElem?_eq_getElem hiL]
        rw [hrs, hv]
        have hcL : (min ((i : ℤ) + 1) ((input.length : ℤ) - 1)).toNat < input.length := by
          omega
        have hrs2 : readSample input (min ((i : ℤ) + 1) ((input.length : ℤ) - 1)) =
            input[(min ((i : ℤ) + 1) ((input.length : ℤ) - 1)).toNat] := by
          unfold readSample
          rw [if_neg (by omega : ¬ min ((i : ℤ) + 1) ((input.length : ℤ) - 1) < 0)]
          simp [List.getElem?_eq_getElem hcL]
        rw [hrs2]
        obtain ⟨w, hw⟩ := Option.isSome_iff_exists.mp (hreal _ (List.getElem_mem hcL))
        rw [hw]
        simp [lerpSample, hv]

/-- Witness for C7: a concrete two-sample impulse response is returned
unchanged by the pass-through branch and by the interpolation branch. -/
theorem resample_identity_witness :
    resample false [some 1, some (1 / 2 : ℝ)] 2 = [some 1, some (1 / 2 : ℝ)] ∧
    resample true [some 1, some (1 / 2 : ℝ)] 2 = [some 1, some (1 / 2 : ℝ)] :=
  ⟨(resample_identity [some 1, some (1 / 2 : ℝ)]
      (by intro o ho; simp at ho; rcases ho with h | h <;> simp [h])).1,
   (resample_identity [some 1, some (1 / 2 : ℝ)]
      (by intro o ho; simp at ho; rcases ho with h | h <;> simp [h])).2 (by decide)⟩

/-- Claim C5: createAmbisonicHRIRBuffer assembles exactly 8 channels, in
the order [frontL, frontR, leftL, leftR, upL, upR, frontL, frontR] for
ambisonic channels W, Y, Z, X: channels 0-1 are the left/right impulse
responses of the position nearest to front (0,0), channels 2-3 nearest to
left (90,0), channels 4-5 nearest to up (0,90), and channels 6-7 repeat
the front pair, so the X channel reuses the front responses and the back,
right and down lookups contribute no channel.  All eight channels pass
through one common resampling stage (the existentially bound flag and
output length). -/
theorem createAmbisonicHRIRBuffer_spec (sofaData : HybridSofaData)
    (contextSampleRate : ℝ) :
    (createAmbisonicHRIRBuffer sofaData contextSampleRate).length = 8 ∧
    (∃ (needsResampling : Bool) (outputLength : ℕ),
      createAmbisonicHRIRBuffer sofaData contextSampleRate =
        [resample needsResampling
          (sofaData.irLeft.getD (findNearestHRIR sofaData 0 0) []) outputLength,
         resample needsResampling
          (sofaData.irRight.getD (findNearestHRIR sofaData 0 0) []) outputLength,
         resample needsResampling
          (sofaData.irLeft.getD (findNearestHRIR sofaData 90 0) []) outputLength,
         resample needsResampling
          (sofaData.irRight.getD (findNearestHRIR sofaData 90 0) []) outputLength,
         resample needsResampling
          (sofaData.irLeft.getD (findNearestHRIR sofaData 0 90) []) outputLength,
         resample needsResampling
          (sofaData.irRight.getD (findNearestHRIR sofaData 0 90) []) outputLength,
         resample needsResampling
          (sofaData.irLeft.getD (findNearestHRIR sofaData 0 0) []) outputLength,
         resample needsResampling
          (sofaData.irRight.getD (findNearestHRIR sofaData 0 0) []) outputLength]) ∧
    (createAmbisonicHRIRBuffer sofaData contextSampleRate).get? 6 =
      (createAmbisonicHRIRBuffer sofaData contextSampleRate).get? 0 ∧
    (createAmbisonicHRIRBuffer sofaData contextSampleRate).get? 7 =
      (createAmbisonicHRIRBuffer sofaData contextSampleRate).get? 1 :=
  ⟨rfl, ⟨_, _, rfl⟩, rfl, rfl⟩

lemma normAz360_bounds (az : ℝ) : 0 ≤ normAz360 az ∧ normAz360 az < 360 := by
  unfold normAz360
  have hb := jsFmod_bounds az
  exact jsFmod_nonneg_bounds (by linarith [hb.1])

lemma hrirDistance_nonneg (t e : ℝ) (p : ℝ × ℝ × ℝ) : 0 ≤ hrirDistance t e p := by
  simp only [hrirDistance]
  apply mul_nonneg (by norm_num : (0 : ℝ) ≤ 2)
  exact Real.arcsin_nonneg.mpr (Real.sqrt_nonneg _)

lemma hrirDistance_self_eq_zero (t e : ℝ) (p : ℝ × ℝ × ℝ)
    (h1 : p.1 = t) (h2 : p.2.1 = e) : hrirDistance t e p = 0 := by
  simp only [hrirDistance, h1, h2, sub_self, zero_div, Real.sin_zero]
  norm_num [Real.sqrt_zero, Real.arcsin_zero]

/-- The scan of findNearestHRIR keeps the first index attaining the
minimal distance: after folding over range n (n ≥ 1) the accumulator
holds some index j with its distance, j is within range, no index beats
it, and every earlier index is strictly worse. -/
lemma foldl_findStep_spec (d : ℕ → ℝ) :
    ∀ n : ℕ, 1 ≤ n →
      ∃ j : ℕ, (List.range n).foldl (findStep d) (none, 0) = (some (d j), j) ∧
        j < n ∧ (∀ i, i < n → d j ≤ d i) ∧ (∀ i, i < j → d j < d i) := by
  intro n
  induction n with
  | zero => intro h; exact absurd h (by norm_num)
  | succ n ih =>
    intro _
    rcases Nat.eq_zero_or_pos n with h0 | hpos
    · subst h0
      refine ⟨0, ?_, Nat.zero_lt_one, ?_, ?_⟩
      · rfl
      · intro i hi
        have hi0 : i = 0 := by omega
        subst hi0
        exact le_rfl
      · intro i hi
        omega
    · obtain ⟨j, hfold, hjn, hmin, hfirst⟩ := ih hpos
      rw [List.range_succ, List.foldl_append, hfold]
      simp only [List.foldl_cons, List.foldl_nil]
      by_cases hlt : d n < d j
      · refine ⟨n, ?_, by omega, ?_, ?_⟩
        · simp [findStep, hlt]
        · intro i hi
          rcases (by omega : i < n ∨ i = n) with h | h
          · exact le_of_lt (lt_of_lt_of_le hlt (hmin i h))
          · subst h
            exact le_rfl
        · intro i hi
          exact lt_of_lt_of_le hlt (hmin i hi)
      · refine ⟨j, ?_, by omega, ?_, hfirst⟩
        · simp [findStep, hlt]
        · intro i hi
          rcases (by omega : i < n ∨ i = n) with h | h
          · exact hmin i h
          · subst h
            exact not_lt.mp hlt

/-- Claim C1: on a well-formed dataset with at least one stored position,
findNearestHRIR normalizes the target azimuth into [0, 360), scores every
stored position with the haversine-style angular distance hrirDistance,
and returns the index of a position of minimal distance, with the first
such index winning exact ties (every earlier index is strictly worse);
querying a direction equal to a stored position (azimuth equal after
normalization, elevation equal) yields a result at distance exactly 0. -/
theorem findNearestHRIR_spec (sofaData : HybridSofaData) (azimuth elevation : ℝ)
    (h1 : 1 ≤ sofaData.numPositions)
    (h2 : sofaData.numPositions ≤ sofaData.sourcePositions.length) :
    0 ≤ normAz360 azimuth ∧ normAz360 azimuth < 360 ∧
    findNearestHRIR sofaData azimuth elevation < sofaData.numPositions ∧
    (∀ i, i < sofaData.numPositions →
      hrirDistance (normAz360 azimuth) elevation
        (sofaData.sourcePositions.getD
          (findNearestHRIR sofaData azimuth elevation) (0, 0, 0)) ≤
      hrirDistance (normAz360 azimuth) elevation
        (sofaData.sourcePositions.getD i (0, 0, 0))) ∧
    (∀ i, i < findNearestHRIR sofaData azimuth elevation →
      hrirDistance (normAz360 azimuth) elevation
        (sofaData.sourcePositions.getD
          (findNearestHRIR sofaData azimuth elevation) (0, 0, 0)) <
      hrirDistance (normAz360 azimuth) elevation
        (sofaData.sourcePositions.getD i (0, 0, 0))) ∧
    (∀ k, k < sofaData.numPositions →
      (sofaData.sourcePositions.getD k (0, 0, 0)).1 = normAz360 azimuth →
      (sofaData.sourcePositions.getD k (0, 0, 0)).2.1 = elevation →
      hrirDistance (normAz360 azimuth) elevation
        (sofaData.sourcePositions.getD
          (findNearestHRIR sofaData azimuth elevation) (0, 0, 0)) = 0) := by
  obtain ⟨j, hfold, hjn, hmin, hfirst⟩ :=
    foldl_findStep_spec
      (fun i => hrirDistance (normAz360 azimuth) elevation
        (sofaData.sourcePositions.getD i (0, 0, 0)))
      sofaData.numPositions h1
  have hres : findNearestHRIR sofaData azimuth elevation = j := by
    unfold findNearestHRIR
    rw [hfold]
  refine ⟨(normAz360_bounds azimuth).1, (normAz360_bounds azimuth).2, ?_, ?_, ?_, ?_⟩
  · rw [hres]
    exact hjn
  · intro i hi
    rw [hres]
    exact hmin i hi
  · intro i hi
    rw [hres] at hi ⊢
    exact hfirst i hi
  · intro k hk hk1 hk2
    have hzero : hrirDistance (normAz360 azimuth) elevation
        (sofaData.sourcePositions.getD k (0, 0, 0)) = 0 :=
      hrirDistance_self_eq_zero _ _ _ hk1 hk2
    have hle := hmin k hk
    rw [hzero] at hle
    have hge := hrirDistance_nonneg (normAz360 azimuth) elevation
      (sofaData.sourcePositions.getD j (0, 0, 0))
    rw [hres]
    linarith

/-- Witness for C1 on a concrete two-position dataset at (0,0) and
(180,0): the query (0,0) satisfies the hypotheses and the full nearest-
neighbour specification. -/
theorem findNearestHRIR_spec_witness :
    1 ≤ (⟨48000, 2, 4, 2, [(0, 0, 1), (180, 0, 1)], [], []⟩ :
        HybridSofaData).numPositions ∧
    (0 ≤ normAz360 0 ∧ normAz360 0 < 360 ∧
      findNearestHRIR
        (⟨48000, 2, 4, 2, [(0, 0, 1), (180, 0, 1)], [], []⟩ : HybridSofaData) 0 0 <
        (⟨48000, 2, 4, 2, [(0, 0, 1), (180, 0, 1)], [], []⟩ :
          HybridSofaData).numPositions ∧
      (∀ i, i < (⟨48000, 2, 4, 2, [(0, 0, 1), (180, 0, 1)], [], []⟩ :
          HybridSofaData).numPositions →
        hrirDistance (normAz360 0) 0
          ((⟨48000, 2, 4, 2, [(0, 0, 1), (180, 0, 1)], [], []⟩ :
            HybridSofaData).sourcePositions.getD
            (findNearestHRIR
              (⟨48000, 2, 4, 2, [(0, 0, 1), (180, 0, 1)], [], []⟩ :
                HybridSofaData) 0 0) (0, 0, 0)) ≤
        hrirDistance (normAz360 0) 0
          ((⟨48000, 2, 4, 2, [(0, 0, 1), (180, 0, 1)], [], []⟩ :
            HybridSofaData).sourcePositions.getD i (0, 0, 0))) ∧
      (∀ i, i < findNearestHRIR
          (⟨48000, 2, 4, 2, [(0, 0, 1), (180, 0, 1)], [], []⟩ : HybridSofaData) 0 0 →
        hrirDistance (normAz360 0) 0
          ((⟨48000, 2, 4, 2, [(0, 0, 1), (180, 0, 1)], [], []⟩ :
            HybridSofaData).sourcePositions.getD
            (findNearestHRIR
              (⟨48000, 2, 4, 2, [(0, 0, 1), (180, 0, 1)], [], []⟩ :
                HybridSofaData) 0 0) (0, 0, 0)) <
        hrirDistance (normAz360 0) 0
          ((⟨48000, 2, 4, 2, [(0, 0, 1), (180, 0, 1)], [], []⟩ :
            HybridSofaData).sourcePositions.getD i (0, 0, 0))) ∧
      (∀ k, k < (⟨48000, 2, 4, 2, [(0, 0, 1), (180, 0, 1)], [], []⟩ :
          HybridSofaData).numPositions →
        ((⟨48000, 2, 4, 2, [(0, 0, 1), (180, 0, 1)], [], []⟩ :
          HybridSofaData).sourcePositions.getD k (0, 0, 0)).1 = normAz360 0 →
        ((⟨48000, 2, 4, 2, [(0, 0, 1), (180, 0, 1)], [], []⟩ :
          HybridSofaData).sourcePositions.getD k (0, 0, 0)).2.1 = 0 →
        hrirDistance (normAz360 0) 0
          ((⟨48000, 2, 4, 2, [(0, 0, 1), (180, 0, 1)], [], []⟩ :
            HybridSofaData).sourcePositions.getD
            (findNearestHRIR
              (⟨48000, 2, 4, 2, [(0, 0, 1), (180, 0, 1)], [], []⟩ :
                HybridSofaData) 0 0) (0, 0, 0)) = 0)) :=
  ⟨by decide,
    findNearestHRIR_spec
      (⟨48000, 2, 4, 2, [(0, 0, 1), (180, 0, 1)], [], []⟩ : HybridSofaData) 0 0
      (by decide) (by decide)⟩

/-- Claim C10: on a well-formed dataset, findNearestHRIR always returns a
value, and the result is a valid index as soon as the dataset holds at
least one position; on an empty dataset the scan never runs and the
initial index 0 is returned, which indexes no stored position. -/
theorem findNearestHRIR_index_bound (sofaData : HybridSofaData)
    (azimuth elevation : ℝ)
    (hwf : sofaData.numPositions ≤ sofaData.sourcePositions.length) :
    (1 ≤ sofaData.numPositions →
      findNearestHRIR sofaData azimuth elevation < sofaData.numPositions) ∧
    (sofaData.numPositions = 0 →
      findNearestHRIR sofaData azimuth elevation = 0) := by
  constructor
  · intro h1
    obtain ⟨j, hfold, hjn, _, _⟩ :=
      foldl_findStep_spec
        (fun i => hrirDistance (normAz360 azimuth) elevation
          (sofaData.sourcePositions.getD i (0, 0, 0)))
        sofaData.numPositions h1
    unfold findNearestHRIR
    rw [hfold]
    exact hjn
  · intro h0
    unfold findNearestHRIR
    rw [h0]
    rfl

/-- Witness for C10 on a concrete one-position dataset: the returned
index is within bounds. -/
theorem findNearestHRIR_index_bound_witness :
    (1 ≤ (⟨44100, 1, 2, 2, [(10, 20, 1)], [], []⟩ : HybridSofaData).numPositions →
      findNearestHRIR (⟨44100, 1, 2, 2, [(10, 20, 1)], [], []⟩ : HybridSofaData)
          (-30) 45 <
        (⟨44100, 1, 2, 2, [(10, 20, 1)], [], []⟩ : HybridSofaData).numPositions) ∧
    ((⟨44100, 1, 2, 2, [(10, 20, 1)], [], []⟩ : HybridSofaData).numPositions = 0 →
      findNearestHRIR (⟨44100, 1, 2, 2, [(10, 20, 1)], [], []⟩ : HybridSofaData)
          (-30) 45 = 0) :=
  findNearestHRIR_index_bound
    (⟨44100, 1, 2, 2, [(10, 20, 1)], [], []⟩ : HybridSofaData) (-30) 45 (by decide)

lemma getD_map_range {α : Type} (M : ℕ) (f : ℕ → α) (m : ℕ) (d : α) :
    ((List.range M).map f).getD m d = if m < M then f m else d := by
  rcases Nat.lt_or_ge m M with h | h
  · rw [if_pos h, List.getD_eq_getElem?_getD, List.getElem?_map, List.getElem?_range h]
    rfl
  · rw [if_neg (Nat.not_lt.mpr h), List.getD_eq_getElem?_getD,
      List.getElem?_eq_none (by simpa using h), Option.getD_none]

/-- Claim C2: when the metadata leaves are present but the binary payload
length differs from M·R·N, loadHybridSofa does not fail: it returns a
dataset together with a logged size-mismatch warning, every sample that
holds a value is the payload value at the flat offset of the sample (so it
lies inside the payload), and every sample whose flat offset reaches past
the payload end holds none (the NaN marker), never a fabricated value. -/
theorem loadHybridSofa_size_mismatch (meta : SofaMetadata) (rawData : List ℝ)
    (shape : List ℕ) (ps : List (ℝ × ℝ × ℝ)) (srd : ℝ ⊕ List ℝ)
    (h1 : meta.irShape = some shape)
    (h2 : meta.sourcePositionData = some ps)
    (h3 : meta.sampleRateData = some srd)
    (hm : rawData.length ≠ shape.getD 0 0 * shape.getD 1 0 * shape.getD 2 0) :
    ∃ data warnings, loadHybridSofa meta rawData = .ok (data, warnings) ∧
      warnings ≠ [] ∧
      (∀ m n v, (data.irLeft.getD m []).getD n none = some v →
        rawData.get? (m * shape.getD 1 0 * shape.getD 2 0 + n) = some v) ∧
      (∀ m n v, (data.irRight.getD m []).getD n none = some v →
        rawData.get?
          (m * shape.getD 1 0 * shape.getD 2 0 + shape.getD 2 0 + n) = some v) ∧
      (∀ m n, rawData.length ≤ m * shape.getD 1 0 * shape.getD 2 0 + n →
        (data.irLeft.getD m []).getD n none = none) ∧
      (∀ m n,
        rawData.length ≤ m * shape.getD 1 0 * shape.getD 2 0 + shape.getD 2 0 + n →
        (data.irRight.getD m []).getD n none = none) := by
  simp only [loadHybridSofa, h1, h2, h3]
  rw [if_pos hm]
  refine ⟨_, _, rfl, ?_, ?_, ?_, ?_, ?_⟩
  · exact List.cons_ne_nil _ _
  · intro m n v hv
    dsimp only at hv
    rcases Nat.lt_or_ge m (shape.getD 0 0) with hmM | hmM
    · rw [getD_map_range, if_pos hmM] at hv
      rcases Nat.lt_or_ge n (shape.getD 2 0) with hnN | hnN
      · rw [getD_map_range, if_pos hnN] at hv
        exact hv
      · rw [getD_map_range, if_neg (Nat.not_lt.mpr hnN)] at hv
        exact absurd hv (by simp)
    · rw [getD_map_range, if_neg (Nat.not_lt.mpr hmM)] at hv
      simp at hv
  · intro m n v hv
    dsimp only at hv
    rcases Nat.lt_or_ge m (shape.getD 0 0) with hmM | hmM
    · rw [getD_map_range, if_pos hmM] at hv
      rcases Nat.lt_or_ge n (shape.getD 2 0) with hnN | hnN
      · rw [getD_map_range, if_pos hnN] at hv
        exact hv
      · rw [getD_map_range, if_neg (Nat.not_lt.mpr hnN)] at hv
        exact absurd hv (by simp)
    · rw [getD_map_range, if_neg (Nat.not_lt.mpr hmM)] at hv
      simp at hv
  · intro m n hlen
    dsimp only
    rcases Nat.lt_or_ge m (shape.getD 0 0) with hmM | hmM
    · rw [getD_map_range, if_pos hmM]
      rcases Nat.lt_or_ge n (shape.getD 2 0) with hnN | hnN
      · rw [getD_map_range, if_pos hnN]
        exact List.get?_eq_none.mpr hlen
      · rw [getD_map_range, if_neg (Nat.not_lt.mpr hnN)]
    · rw [getD_map_range, if_neg (Nat.not_lt.mpr hmM)]
      simp
  · intro m n hlen
    dsimp only
    rcases Nat.lt_or_ge m (shape.getD 0 0) with hmM | hmM
    · rw [getD_map_range, if_pos hmM]
      rcases Nat.lt_or_ge n (shape.getD 2 0) with hnN | hnN
      · rw [getD_map_range, if_pos hnN]
        exact List.get?_eq_none.mpr hlen
      · rw [getD_map_range, if_neg (Nat.not_lt.mpr hnN)]
    · rw [getD_map_range, if_neg (Nat.not_lt.mpr hmM)]
      simp

/-- Witness for C2: a concrete 2x2x4 metadata shape with a 3-sample
payload (16 expected) loads successfully, warns, and fabricates no sample
values beyond the payload. -/
theorem loadHybridSofa_size_mismatch_witness :
    ([(1 : ℝ), 2, 3].length ≠
      [2, 2, 4].getD 0 0 * [2, 2, 4].getD 1 0 * [2, 2, 4].getD 2 0) ∧
    (∃ data warnings,
      loadHybridSofa
          (⟨some [2, 2, 4], some [(0, 0, 1), (180, 0, 1)], some (Sum.inl 48000)⟩ :
            SofaMetadata) [(1 : ℝ), 2, 3] = .ok (data, warnings) ∧
        warnings ≠ [] ∧
        (∀ m n v, (data.irLeft.getD m []).getD n none = some v →
          [(1 : ℝ), 2, 3].get?
            (m * [2, 2, 4].getD 1 0 * [2, 2, 4].getD 2 0 + n) = some v) ∧
        (∀ m n v, (data.irRight.getD m []).getD n none = some v →
          [(1 : ℝ), 2, 3].get?
            (m * [2, 2, 4].getD 1 0 * [2, 2, 4].getD 2 0 +
              [2, 2, 4].getD 2 0 + n) = some v) ∧
        (∀ m n,
          [(1 : ℝ), 2, 3].length ≤
            m * [2, 2, 4].getD 1 0 * [2, 2, 4].getD 2 0 + n →
          (data.irLeft.getD m []).getD n none = none) ∧
        (∀ m n,
          [(1 : ℝ), 2, 3].length ≤
            m * [2, 2, 4].getD 1 0 * [2, 2, 4].getD 2 0 +
              [2, 2, 4].getD 2 0 + n →
          (data.irRight.getD m []).getD n none = none)) :=
  ⟨by decide,
    loadHybridSofa_size_mismatch
      (⟨some [2, 2, 4], some [(0, 0, 1), (180, 0, 1)], some (Sum.inl 48000)⟩ :
        SofaMetadata) [(1 : ℝ), 2, 3] [2, 2, 4] [(0, 0, 1), (180, 0, 1)]
      (Sum.inl 48000) rfl rfl rfl (by decide)⟩

/-- Claim C3: for every azimuth in (-180, 180], elevation in [0, 90) and
radius r > 0, pointToAzEl inverts azElToPoint exactly over the reals
(which subsumes the 1e-6 degree tolerance); the degenerate center el = 90
is excluded. -/
theorem pointToAzEl_azElToPoint_roundtrip (az el r : ℝ)
    (haz1 : -180 < az) (haz2 : az ≤ 180) (hel1 : 0 ≤ el) (hel2 : el < 90)
    (hr : 0 < r) :
    pointToAzEl (azElToPoint az el r).1 (azElToPoint az el r).2 r = (az, el) := by
  have hclampel : clamp el 0 90 = el := by
    unfold clamp
    rw [min_eq_right (by linarith), max_eq_right hel1]
  have hpoint : azElToPoint az el r =
      (-Real.sin (degToRad az) * ((1 - el / 90) * r),
       -Real.cos (degToRad az) * ((1 - el / 90) * r)) := by
    simp only [azElToPoint, hclampel]
  rw [hpoint]
  set θ := degToRad az with hθdef
  set dist := (1 - el / 90) * r with hdistdef
  have hdist_pos : 0 < dist := by
    rw [hdistdef]
    apply mul_pos _ hr
    have h90 : el / 90 < 1 := by
      rw [div_lt_one (by norm_num : (0:ℝ) < 90)]
      linarith
    linarith
  simp only [pointToAzEl]
  have hsq : -Real.sin θ * dist * (-Real.sin θ * dist) +
      -Real.cos θ * dist * (-Real.cos θ * dist) = dist ^ 2 := by
    have hpy := Real.sin_sq_add_cos_sq θ
    nlinarith [hpy]
  rw [hsq, Real.sqrt_sq hdist_pos.le]
  have hdr : dist / r = 1 - el / 90 := by
    rw [hdistdef]
    exact mul_div_cancel_right₀ _ hr.ne'
  rw [hdr]
  have hclampd : clamp (1 - el / 90) 0 1 = 1 - el / 90 := by
    unfold clamp
    have h90 : 0 ≤ el / 90 := by positivity
    rw [min_eq_right (by linarith), max_eq_right (by linarith [hdist_pos])]
  rw [hclampd]
  have hangle : atan2 (- (-Real.sin θ * dist)) (- (-Real.cos θ * dist)) = θ := by
    have hs1 : - (-Real.sin θ * dist) = Real.sin θ * dist := by ring
    have hs2 : - (-Real.cos θ * dist) = Real.cos θ * dist := by ring
    rw [hs1, hs2]
    unfold atan2
    have hC : (⟨Real.cos θ * dist, Real.sin θ * dist⟩ : ℂ) =
        (dist : ℂ) * (Complex.cos (θ : ℂ) + Complex.sin (θ : ℂ) * Complex.I) := by
      rw [Complex.mk_eq_add_mul_I, ← Complex.ofReal_cos, ← Complex.ofReal_sin]
      push_cast
      ring
    rw [hC]
    apply Complex.arg_mul_cos_add_sin_mul_I hdist_pos
    have hpi := Real.pi_pos
    constructor
    · rw [hθdef]
      unfold degToRad
      nlinarith [mul_pos hpi (show (0:ℝ) < az + 180 by linarith)]
    · rw [hθdef]
      unfold degToRad
      nlinarith [mul_le_mul_of_nonneg_right haz2 hpi.le]
  rw [hangle]
  have hrad : radToDeg θ = az := by
    rw [hθdef]
    unfold radToDeg degToRad
    field_simp
  rw [hrad, normalizeDegrees_eq_self haz1 haz2]
  have hel90 : (1 - (1 - el / 90)) * 90 = el := by
    field_simp
  rw [hel90]

/-- Witness for C3: the round trip at azimuth 90, elevation 0, radius 1. -/
theorem pointToAzEl_azElToPoint_roundtrip_witness :
    pointToAzEl (azElToPoint 90 0 1).1 (azElToPoint 90 0 1).2 1 = (90, 0) :=
  pointToAzEl_azElToPoint_roundtrip 90 0 1 (by norm_num) (by norm_num)
    (by norm_num) (by norm_num) (by norm_num)

end SC360
